import Mathlib

/-!
Shallow embedding of the Renderer bootstrap logic of the custicle engine
(src/engine/src/renderer.rs and src/engine/src/helper.rs), together with
theorems checking the specification's claims about it.

Machine integers (`u32`) are modelled as `Nat`, with wrap-around written
explicitly (`% 2 ^ 32`) where the source performs `u32` arithmetic that can
overflow.  Rust panics (`expect`, `unwrap`, failed `assert!`, a `clamp` call
with `min > max`) are modelled as `none` / `Except.error`.
-/

namespace Custicle

/-- `u32::MAX`. -/
def u32Max : Nat := 4294967295

/-- Embeds `helper::usize_into_u32` (src/engine/src/helper.rs):
`value.try_into().expect("failed converting usize into u32")`.
`none` models the panic, which happens exactly when the value exceeds
`u32::MAX`. -/
def usize_into_u32 (value : Nat) : Option Nat :=
  if value ≤ u32Max then some value else none

/-- `vk::Extent2D`: a pair of `u32` dimensions. -/
structure Extent2D where
  width : Nat
  height : Nat
deriving DecidableEq, Repr

/-- `ash::vk::Format` is an `i32` newtype; we keep the numeric values.
`Format::R8G8B8A8_SRGB` is 43. -/
def FORMAT_R8G8B8A8_SRGB : Nat := 43

/-- `ash::vk::ColorSpaceKHR::SRGB_NONLINEAR` is 0. -/
def COLOR_SPACE_SRGB_NONLINEAR : Nat := 0

/-- `ash::vk::PresentModeKHR::IMMEDIATE` is 0. -/
def PRESENT_MODE_IMMEDIATE : Nat := 0

/-- `ash::vk::PresentModeKHR::MAILBOX` is 1. -/
def PRESENT_MODE_MAILBOX : Nat := 1

/-- `ash::vk::PresentModeKHR::FIFO` is 2. -/
def PRESENT_MODE_FIFO : Nat := 2

/-- `vk::SurfaceFormatKHR`: a format / color-space pair. -/
structure SurfaceFormatKHR where
  format : Nat
  color_space : Nat
deriving DecidableEq, Repr

/-- The preference test inlined in the loop of
`Renderer::chose_swapchain_surface_format` (renderer.rs:492):
`surface_format.format == Format::R8G8B8A8_SRGB &&
 surface_format.color_space == ColorSpaceKHR::SRGB_NONLINEAR`. -/
def preferred_surface_format (sf : SurfaceFormatKHR) : Bool :=
  sf.format == FORMAT_R8G8B8A8_SRGB && sf.color_space == COLOR_SPACE_SRGB_NONLINEAR

/-- Embeds `Renderer::chose_swapchain_surface_format` (renderer.rs:490-497).
The for-loop with early return is `List.find?`; the final
`available_surface_formats.first().unwrap()` panics (`none`) on an empty
list and otherwise yields the head. -/
def chose_swapchain_surface_format
    (available_surface_formats : List SurfaceFormatKHR) : Option SurfaceFormatKHR :=
  match available_surface_formats.find? preferred_surface_format with
  | some surface_format => some surface_format
  | none => available_surface_formats.head?

/-- Embeds `Renderer::chose_swapchain_present_mode` (renderer.rs:499-519):
return `MAILBOX` when the loop finds it, else `FIFO`. -/
def chose_swapchain_present_mode (available_surface_present_modes : List Nat) : Nat :=
  match available_surface_present_modes.find? (fun pm => pm == PRESENT_MODE_MAILBOX) with
  | some present_mode => present_mode
  | none => PRESENT_MODE_FIFO

/-- `vk::SurfaceCapabilitiesKHR`, restricted to the fields the Renderer
reads. -/
structure SurfaceCapabilitiesKHR where
  min_image_count : Nat
  max_image_count : Nat
  current_extent : Extent2D
  min_image_extent : Extent2D
  max_image_extent : Extent2D
deriving DecidableEq, Repr

/-- Rust's `u32::clamp(self, min, max)`: asserts `min <= max` (panicking
otherwise, modelled as `none`), then clamps. -/
def u32_clamp (x lo hi : Nat) : Option Nat :=
  if lo > hi then none
  else some (if x < lo then lo else if x > hi then hi else x)

/-- Embeds `Renderer::chose_swapchain_extent` (renderer.rs:521-541).
The window argument is represented by the already-computed
`logical_inner_size` (`window.inner_size().to_logical(window.scale_factor())`,
renderer.rs:527).  Note the source clamps the width against
`(min_image_extent.width, min_image_extent.height)` — the second bound is
`min_image_extent.height`, not `max_image_extent.width`. -/
def chose_swapchain_extent (surface_capabilities : SurfaceCapabilitiesKHR)
    (logical_inner_size : Extent2D) : Option Extent2D :=
  if surface_capabilities.current_extent.width ≠ u32Max then
    some surface_capabilities.current_extent
  else
    match u32_clamp logical_inner_size.width
            surface_capabilities.min_image_extent.width
            surface_capabilities.min_image_extent.height,
          u32_clamp logical_inner_size.height
            surface_capabilities.min_image_extent.height
            surface_capabilities.max_image_extent.height with
    | some w, some h => some (Extent2D.mk w h)
    | _, _ => none

/-- Embeds the image-count computation of `Renderer::create_swapchain`
(renderer.rs:557-564): `min_image_count + 1` (`u32` addition, hence the
explicit wrap), lowered to `max_image_count` when that is nonzero and
smaller. -/
def swapchain_image_count (surface_capabilities : SurfaceCapabilitiesKHR) : Nat :=
  let count := (surface_capabilities.min_image_count + 1) % 2 ^ 32
  if surface_capabilities.max_image_count > 0 ∧
      surface_capabilities.max_image_count < count then
    surface_capabilities.max_image_count
  else
    count

/-- `vk::SharingMode`. -/
inductive SharingMode
  | exclusive
  | concurrent
deriving DecidableEq, Repr

/-- The sharing-related fields of `vk::SwapchainCreateInfoKHR` that
`Renderer::create_swapchain` sets (renderer.rs:581-595).  The defaults
(before the if/else) are `EXCLUSIVE`, count 0, null pointer. -/
structure SharingConfig where
  image_sharing_mode : SharingMode
  queue_family_index_count : Nat
  queue_family_indices : List Nat
deriving DecidableEq, Repr

/-- Embeds the sharing-mode branch of `Renderer::create_swapchain`
(renderer.rs:584-595), given the two unwrapped queue-family indices. -/
def swapchain_sharing_config (graphics_family present_family : Nat) : SharingConfig :=
  if graphics_family ≠ present_family then
    SharingConfig.mk SharingMode.concurrent 2 [graphics_family, present_family]
  else
    SharingConfig.mk SharingMode.exclusive 0 []

/-- One entry of `get_physical_device_queue_family_properties`, paired with
the `get_physical_device_surface_support` answer for its index:
`graphics` is `queue_flags.contains(QueueFlags::GRAPHICS)`,
`present_support` the surface-support query result. -/
structure QueueFamilyProperties where
  graphics : Bool
  present_support : Bool
deriving DecidableEq, Repr

/-- Embeds `QueueFamilyIndices` (renderer.rs:62-79). -/
structure QueueFamilyIndices where
  graphics_family : Option Nat
  present_family : Option Nat
deriving DecidableEq, Repr

/-- `QueueFamilyIndices::new` (renderer.rs:68-73). -/
def QueueFamilyIndices.new : QueueFamilyIndices :=
  QueueFamilyIndices.mk none none

/-- `QueueFamilyIndices::is_complete` (renderer.rs:75-78). -/
def QueueFamilyIndices.is_complete (q : QueueFamilyIndices) : Bool :=
  q.graphics_family.isSome && q.present_family.isSome

/-- The two record updates one iteration of the loop of
`Renderer::find_queue_families` performs (renderer.rs:297-312): a
graphics-capable family overwrites `graphics_family` with its index, a
present-capable one overwrites `present_family`. -/
def qfi_update (queue_family : QueueFamilyProperties) (index : Nat)
    (queue_family_indices : QueueFamilyIndices) : QueueFamilyIndices :=
  let acc1 :=
    if queue_family.graphics then
      { queue_family_indices with graphics_family := some index }
    else queue_family_indices
  if queue_family.present_support then
    { acc1 with present_family := some index }
  else acc1

/-- The loop of `Renderer::find_queue_families` (renderer.rs:294-317):
for each enumerated family the index is converted by `usize_into_u32`
(panic modelled by `none`), the family's capabilities update the record
(`qfi_update`), and the loop breaks as soon as the record is complete. -/
def find_queue_families_loop :
    List QueueFamilyProperties → Nat → QueueFamilyIndices → Option QueueFamilyIndices
  | [], _, queue_family_indices => some queue_family_indices
  | queue_family :: rest, idx, queue_family_indices =>
    match usize_into_u32 idx with
    | none => none
    | some index =>
      let acc := qfi_update queue_family index queue_family_indices
      if acc.is_complete then some acc
      else find_queue_families_loop rest (idx + 1) acc

/-- Embeds `Renderer::find_queue_families` (renderer.rs:288-321). -/
def find_queue_families (queue_families : List QueueFamilyProperties) :
    Option QueueFamilyIndices :=
  find_queue_families_loop queue_families 0 QueueFamilyIndices.new

/-- `Renderer::DEVICE_EXTENSIONS` (renderer.rs:139): just
`VK_KHR_swapchain`. -/
def DEVICE_EXTENSIONS : List String := ["VK_KHR_swapchain"]

/-- Embeds `Renderer::check_physical_device_extension_support`
(renderer.rs:323-337): start from the set of required extensions, remove
every available one, succeed iff nothing remains. -/
def check_physical_device_extension_support
    (available_device_extensions : List String) : Bool :=
  (available_device_extensions.foldl
    (fun required ext => required.erase ext) DEVICE_EXTENSIONS).isEmpty

/-- A physical-device candidate, carrying the answers of the driver
queries that `is_physical_device_suitable` performs. -/
structure PhysicalDeviceCandidate where
  queue_families : List QueueFamilyProperties
  device_extensions : List String
  surface_formats : List SurfaceFormatKHR
  surface_present_modes : List Nat
deriving DecidableEq, Repr

/-- Embeds `Renderer::is_physical_device_suitable` (renderer.rs:339-377):
complete queue families AND extension support AND (computed only under
extension support) at least one surface format and one present mode.
`none` models a panic propagated from `find_queue_families`. -/
def is_physical_device_suitable (c : PhysicalDeviceCandidate) : Option Bool :=
  match find_queue_families c.queue_families with
  | none => none
  | some queue_family_indices =>
    let extension_support := check_physical_device_extension_support c.device_extensions
    let swapchain_adequate :=
      if extension_support then
        !c.surface_formats.isEmpty && !c.surface_present_modes.isEmpty
      else false
    some (queue_family_indices.is_complete && extension_support && swapchain_adequate)

/-- The scan loop of `Renderer::select_physical_device` (renderer.rs:385-391)
with its trailing `panic!("no suitable physical device found!")`.  A panic
inside the suitability check propagates. -/
def select_physical_device_loop :
    List PhysicalDeviceCandidate → Except String PhysicalDeviceCandidate
  | [] => Except.error "no suitable physical device found!"
  | physical_device :: rest =>
    match is_physical_device_suitable physical_device with
    | none => Except.error "failed converting usize into u32"
    | some true => Except.ok physical_device
    | some false => select_physical_device_loop rest

/-- Embeds `Renderer::select_physical_device` (renderer.rs:379-393):
`assert!(physical_devices.len() > 0, "couldn't find any physical device!")`
then the first-suitable scan. -/
def select_physical_device (physical_devices : List PhysicalDeviceCandidate) :
    Except String PhysicalDeviceCandidate :=
  if physical_devices.length > 0 then
    select_physical_device_loop physical_devices
  else
    Except.error "couldn't find any physical device!"

/-- One driver destroy call issued by `impl Drop for Renderer`
(renderer.rs:884-920), tagged with the destroyed handle. -/
inductive DestroyEvent
  | pipeline (handle : Nat)
  | pipeline_layout (handle : Nat)
  | render_pass (handle : Nat)
  | image_view (handle : Nat)
  | swapchain (handle : Nat)
  | device (handle : Nat)
  | surface (handle : Nat)
  | debug_utils_messenger (handle : Nat)
  | vulkan_instance (handle : Nat)
deriving DecidableEq, Repr

/-- The handles a fully constructed `Renderer` owns, listed here in their
creation order from `Renderer::new` (renderer.rs:141-166): instance (and
optional debug messenger), surface, logical device, swapchain, image
views, render pass, pipeline layout, pipeline. -/
structure RendererHandles where
  instance_handle : Nat
  debug_ctx : Option Nat
  surface : Nat
  logical_device : Nat
  swapchain : Nat
  swapchain_image_views : List Nat
  render_pass : Nat
  pipeline_layout : Nat
  pipeline : Nat
deriving DecidableEq, Repr

/-- Embeds the destroy-call trace of `impl Drop for Renderer`
(renderer.rs:884-920), in source order: pipeline, pipeline layout, render
pass, each image view, swapchain, logical device, surface, debug messenger
(only if present), instance. -/
def renderer_drop (r : RendererHandles) : List DestroyEvent :=
  [DestroyEvent.pipeline r.pipeline,
   DestroyEvent.pipeline_layout r.pipeline_layout,
   DestroyEvent.render_pass r.render_pass]
  ++ r.swapchain_image_views.map DestroyEvent.image_view
  ++ [DestroyEvent.swapchain r.swapchain,
      DestroyEvent.device r.logical_device,
      DestroyEvent.surface r.surface]
  ++ (match r.debug_ctx with
      | some debug_call_back => [DestroyEvent.debug_utils_messenger debug_call_back]
      | none => [])
  ++ [DestroyEvent.vulkan_instance r.instance_handle]

/-- The kind of resource a destroy event acts on. -/
inductive ResKind
  | pipeline
  | pipeline_layout
  | render_pass
  | image_view
  | swapchain
  | device
  | surface
  | debug_utils_messenger
  | vulkan_instance
deriving DecidableEq, Repr

/-- Kind of a destroy event. -/
def DestroyEvent.kind : DestroyEvent → ResKind
  | .pipeline _ => .pipeline
  | .pipeline_layout _ => .pipeline_layout
  | .render_pass _ => .render_pass
  | .image_view _ => .image_view
  | .swapchain _ => .swapchain
  | .device _ => .device
  | .surface _ => .surface
  | .debug_utils_messenger _ => .debug_utils_messenger
  | .vulkan_instance _ => .vulkan_instance

/-- Position of each resource kind in the teardown order (the reverse of
the creation order of `Renderer::new`). -/
def ResKind.stage : ResKind → Nat
  | .pipeline => 0
  | .pipeline_layout => 1
  | .render_pass => 2
  | .image_view => 3
  | .swapchain => 4
  | .device => 5
  | .surface => 6
  | .debug_utils_messenger => 7
  | .vulkan_instance => 8

/-- Direct creation-time dependencies between the Renderer's resources:
`a.depends_on b` means `a` was created from (and must be destroyed before)
`b`.  Pipelines are created against their layout, render pass and device;
image views against swapchain images and the device; the swapchain against
the surface and the device; device, surface and debug messenger against
the instance. -/
def ResKind.depends_on : ResKind → ResKind → Bool
  | .pipeline, .pipeline_layout => true
  | .pipeline, .render_pass => true
  | .pipeline, .device => true
  | .pipeline_layout, .device => true
  | .render_pass, .device => true
  | .image_view, .swapchain => true
  | .image_view, .device => true
  | .swapchain, .surface => true
  | .swapchain, .device => true
  | .device, .vulkan_instance => true
  | .surface, .vulkan_instance => true
  | .debug_utils_messenger, .vulkan_instance => true
  | _, _ => false

/-- C10: `usize_into_u32` returns its input exactly for every value at most
`u32::MAX` and panics (here: `none`) for every larger value. -/
theorem usize_into_u32_spec :
    (∀ value : Nat, value ≤ u32Max → usize_into_u32 value = some value) ∧
    (∀ value : Nat, u32Max < value → usize_into_u32 value = none) := by
  constructor
  · intro value h
    simp [usize_into_u32, h]
  · intro value h
    simp [usize_into_u32, Nat.not_le.mpr h]

/-- Witness for `usize_into_u32_spec` at 7 and at `u32::MAX + 1`. -/
theorem usize_into_u32_spec_witness :
    usize_into_u32 7 = some 7 ∧ usize_into_u32 4294967296 = none :=
  ⟨usize_into_u32_spec.1 7 (by decide), usize_into_u32_spec.2 4294967296 (by decide)⟩

/-- C4: for every list of present modes, the mailbox mode is returned
whenever present, and otherwise FIFO is returned, even when FIFO itself is
not in the list. -/
theorem chose_swapchain_present_mode_spec :
    ∀ modes : List Nat,
      (PRESENT_MODE_MAILBOX ∈ modes →
        chose_swapchain_present_mode modes = PRESENT_MODE_MAILBOX) ∧
      (PRESENT_MODE_MAILBOX ∉ modes →
        chose_swapchain_present_mode modes = PRESENT_MODE_FIFO) := by
  intro modes
  constructor
  · intro hmem
    unfold chose_swapchain_present_mode
    cases hfind : modes.find? (fun pm => pm == PRESENT_MODE_MAILBOX) with
    | none =>
      rw [List.find?_eq_none] at hfind
      exact absurd (by simp) (hfind PRESENT_MODE_MAILBOX hmem)
    | some pm =>
      have h1 := List.find?_some hfind
      simpa using h1
  · intro hnot
    unfold chose_swapchain_present_mode
    cases hfind : modes.find? (fun pm => pm == PRESENT_MODE_MAILBOX) with
    | none => rfl
    | some pm =>
      have h1 := List.find?_some hfind
      have h2 := List.mem_of_find?_eq_some hfind
      rw [show pm = PRESENT_MODE_MAILBOX by simpa using h1] at h2
      exact absurd h2 hnot

/-- Witness for `chose_swapchain_present_mode_spec`: a list containing
mailbox yields mailbox; the list `[IMMEDIATE]` (no FIFO in it) yields
FIFO. -/
theorem chose_swapchain_present_mode_spec_witness :
    chose_swapchain_present_mode
        [PRESENT_MODE_IMMEDIATE, PRESENT_MODE_MAILBOX, PRESENT_MODE_FIFO] =
      PRESENT_MODE_MAILBOX ∧
    chose_swapchain_present_mode [PRESENT_MODE_IMMEDIATE] = PRESENT_MODE_FIFO :=
  ⟨(chose_swapchain_present_mode_spec
      [PRESENT_MODE_IMMEDIATE, PRESENT_MODE_MAILBOX, PRESENT_MODE_FIFO]).1 (by decide),
   (chose_swapchain_present_mode_spec [PRESENT_MODE_IMMEDIATE]).2 (by decide)⟩

/-- C3: for every non-empty format list, the returned entry is an 8-bit
RGBA SRGB / SRGB-nonlinear entry of the list whenever one is present, and
otherwise the first-listed entry. -/
theorem chose_swapchain_surface_format_spec :
    ∀ formats : List SurfaceFormatKHR, formats ≠ [] →
      ((∃ sf ∈ formats, preferred_surface_format sf = true) →
        ∃ sf, chose_swapchain_surface_format formats = some sf ∧
          sf ∈ formats ∧ preferred_surface_format sf = true) ∧
      ((∀ sf ∈ formats, preferred_surface_format sf = false) →
        chose_swapchain_surface_format formats = formats.head?) := by
  intro formats hne
  constructor
  · rintro ⟨sf, hmem, hpref⟩
    unfold chose_swapchain_surface_format
    cases hfind : formats.find? preferred_surface_format with
    | none =>
      rw [List.find?_eq_none] at hfind
      exact absurd hpref (hfind sf hmem)
    | some sf2 =>
      exact ⟨sf2, rfl, List.mem_of_find?_eq_some hfind, List.find?_some hfind⟩
  · intro hall
    unfold chose_swapchain_surface_format
    cases hfind : formats.find? preferred_surface_format with
    | none => rfl
    | some sf2 =>
      have h1 := List.find?_some hfind
      have h2 := List.mem_of_find?_eq_some hfind
      rw [hall sf2 h2] at h1
      exact absurd h1 (by simp)

/-- Witness for `chose_swapchain_surface_format_spec`: with the preferred
format listed second it is returned; with only format 50 listed the head
is returned. -/
theorem chose_swapchain_surface_format_spec_witness :
    (∃ sf, chose_swapchain_surface_format
        [SurfaceFormatKHR.mk 50 0, SurfaceFormatKHR.mk 43 0] = some sf ∧
      sf ∈ [SurfaceFormatKHR.mk 50 0, SurfaceFormatKHR.mk 43 0] ∧
      preferred_surface_format sf = true) ∧
    chose_swapchain_surface_format [SurfaceFormatKHR.mk 50 0] =
      List.head? [SurfaceFormatKHR.mk 50 0] :=
  ⟨(chose_swapchain_surface_format_spec
      [SurfaceFormatKHR.mk 50 0, SurfaceFormatKHR.mk 43 0] (by decide)).1 (by decide),
   (chose_swapchain_surface_format_spec [SurfaceFormatKHR.mk 50 0] (by decide)).2
      (by decide)⟩

/-- C5: with minimum image count `m` (no `u32` overflow) and maximum `M`,
the requested image count is `m + 1` when `M = 0` or `M ≥ m + 1`, and `M`
otherwise. -/
theorem swapchain_image_count_spec :
    ∀ caps : SurfaceCapabilitiesKHR, caps.min_image_count + 1 < 2 ^ 32 →
      ((caps.max_image_count = 0 ∨ caps.min_image_count + 1 ≤ caps.max_image_count) →
        swapchain_image_count caps = caps.min_image_count + 1) ∧
      (caps.max_image_count ≠ 0 → caps.max_image_count < caps.min_image_count + 1 →
        swapchain_image_count caps = caps.max_image_count) := by
  intro caps hlt
  have hmod : (caps.min_image_count + 1) % 2 ^ 32 = caps.min_image_count + 1 :=
    Nat.mod_eq_of_lt hlt
  constructor
  · intro h
    simp only [swapchain_image_count, hmod]
    rw [if_neg (by omega)]
  · intro h1 h2
    simp only [swapchain_image_count, hmod]
    rw [if_pos (by omega)]

/-- Witness for `swapchain_image_count_spec` at the three spec examples:
`(min 2, max 0) ↦ 3`, `(min 2, max 3) ↦ 3`, `(min 1, max 1) ↦ 1`. -/
theorem swapchain_image_count_spec_witness :
    swapchain_image_count (SurfaceCapabilitiesKHR.mk 2 0 (Extent2D.mk 0 0)
      (Extent2D.mk 0 0) (Extent2D.mk 0 0)) = 3 ∧
    swapchain_image_count (SurfaceCapabilitiesKHR.mk 2 3 (Extent2D.mk 0 0)
      (Extent2D.mk 0 0) (Extent2D.mk 0 0)) = 3 ∧
    swapchain_image_count (SurfaceCapabilitiesKHR.mk 1 1 (Extent2D.mk 0 0)
      (Extent2D.mk 0 0) (Extent2D.mk 0 0)) = 1 :=
  ⟨(swapchain_image_count_spec _ (by decide)).1 (Or.inl rfl),
   (swapchain_image_count_spec _ (by decide)).1 (Or.inr (by decide)),
   (swapchain_image_count_spec _ (by decide)).2 (by decide) (by decide)⟩

/-- C8: the swapchain sharing mode is concurrent across the two family
indices exactly when graphics and present family indices differ, and
exclusive when they coincide. -/
theorem swapchain_sharing_config_spec :
    ∀ graphics_family present_family : Nat,
      ((swapchain_sharing_config graphics_family present_family).image_sharing_mode =
          SharingMode.concurrent ↔ graphics_family ≠ present_family) ∧
      ((swapchain_sharing_config graphics_family present_family).image_sharing_mode =
          SharingMode.exclusive ↔ graphics_family = present_family) ∧
      (graphics_family ≠ present_family →
        (swapchain_sharing_config graphics_family present_family).queue_family_indices =
            [graphics_family, present_family] ∧
          (swapchain_sharing_config graphics_family present_family).queue_family_index_count
            = 2) := by
  intro g p
  by_cases h : g = p
  · subst h
    simp [swapchain_sharing_config]
  · simp [swapchain_sharing_config, h]

/-- Witness for `swapchain_sharing_config_spec` at the pairs `(0, 1)` and
`(2, 2)`. -/
theorem swapchain_sharing_config_spec_witness :
    (swapchain_sharing_config 0 1).image_sharing_mode = SharingMode.concurrent ∧
    (swapchain_sharing_config 0 1).queue_family_indices = [0, 1] ∧
    (swapchain_sharing_config 2 2).image_sharing_mode = SharingMode.exclusive :=
  ⟨(swapchain_sharing_config_spec 0 1).1.mpr (by decide),
   ((swapchain_sharing_config_spec 0 1).2.2 (by decide)).1,
   (swapchain_sharing_config_spec 2 2).2.1.mpr rfl⟩

/-- C1 (code bug): with the sentinel set, `min_image_extent = (0, 0)`,
`max_image_extent = (1000, 1000)` and window size `(500, 400)`, the code
derives width 0 — `clamp(500, min.width, min.height)` — where the claim
requires width 500 — `clamp(500, min.width, max.width)`.  Third conjunct:
with `min_image_extent = (10, 5)` the width clamp is called with
`min > max` and panics. -/
theorem chose_swapchain_extent_width_clamp_bug :
    chose_swapchain_extent
        (SurfaceCapabilitiesKHR.mk 2 0 (Extent2D.mk u32Max 600)
          (Extent2D.mk 0 0) (Extent2D.mk 1000 1000))
        (Extent2D.mk 500 400) = some (Extent2D.mk 0 400) ∧
    chose_swapchain_extent
        (SurfaceCapabilitiesKHR.mk 2 0 (Extent2D.mk u32Max 600)
          (Extent2D.mk 0 0) (Extent2D.mk 1000 1000))
        (Extent2D.mk 500 400) ≠ some (Extent2D.mk 500 400) ∧
    chose_swapchain_extent
        (SurfaceCapabilitiesKHR.mk 2 0 (Extent2D.mk u32Max 600)
          (Extent2D.mk 10 5) (Extent2D.mk 1000 1000))
        (Extent2D.mk 500 400) = none := by
  refine ⟨by decide, by decide, by decide⟩

/-- C2 (counterexample): over the family list
`[graphics-only, graphics+present]` the scan records graphics family 1 —
the later graphics-capable family overwrites index 0 before the loop stops
— refuting the claim that the first (lowest-index) graphics-capable index
is recorded. -/
theorem find_queue_families_not_first_capable :
    find_queue_families
        [QueueFamilyProperties.mk true false, QueueFamilyProperties.mk true true] =
      some (QueueFamilyIndices.mk (some 1) (some 1)) ∧
    find_queue_families
        [QueueFamilyProperties.mk true false, QueueFamilyProperties.mk true true] ≠
      some (QueueFamilyIndices.mk (some 0) (some 1)) := by
  refine ⟨by decide, by decide⟩

/-- In-range indices convert exactly. -/
theorem usize_into_u32_of_le (idx : Nat) (h : idx ≤ u32Max) :
    usize_into_u32 idx = some idx := by
  simp [usize_into_u32, h]

/-- Out-of-range indices panic. -/
theorem usize_into_u32_of_gt (idx : Nat) (h : ¬ idx ≤ u32Max) :
    usize_into_u32 idx = none := by
  simp [usize_into_u32, h]

/-- The fresh accumulator is incomplete. -/
theorem queue_family_indices_new_incomplete :
    QueueFamilyIndices.new.is_complete = false := rfl

/-- The graphics field after one update step. -/
theorem qfi_update_graphics (qf : QueueFamilyProperties) (index : Nat)
    (acc : QueueFamilyIndices) :
    (qfi_update qf index acc).graphics_family =
      if qf.graphics then some index else acc.graphics_family := by
  unfold qfi_update
  by_cases hg : qf.graphics = true <;> by_cases hp : qf.present_support = true <;>
    simp [hg, hp]

/-- The present field after one update step. -/
theorem qfi_update_present (qf : QueueFamilyProperties) (index : Nat)
    (acc : QueueFamilyIndices) :
    (qfi_update qf index acc).present_family =
      if qf.present_support then some index else acc.present_family := by
  unfold qfi_update
  by_cases hg : qf.graphics = true <;> by_cases hp : qf.present_support = true <;>
    simp [hg, hp]

/-- The queue-family scan terminates normally (no index-conversion panic)
whenever every processed index fits in a `u32`. -/
theorem find_queue_families_loop_total :
    ∀ (qs : List QueueFamilyProperties) (idx : Nat) (acc : QueueFamilyIndices),
      idx + qs.length ≤ 2 ^ 32 →
      ∃ r, find_queue_families_loop qs idx acc = some r := by
  intro qs
  induction qs with
  | nil =>
    intro idx acc h
    exact ⟨acc, rfl⟩
  | cons qf rest ih =>
    intro idx acc h
    simp only [List.length_cons] at h
    have hidx : idx ≤ u32Max := by
      simp only [u32Max]
      omega
    simp only [find_queue_families_loop, usize_into_u32_of_le idx hidx]
    split
    · exact ⟨_, rfl⟩
    · exact ih (idx + 1) _ (by omega)

/-- Any graphics index the scan reports was either already in the
accumulator or belongs to a graphics-capable family at its reported
offset. -/
theorem find_queue_families_loop_graphics_sound :
    ∀ (qs : List QueueFamilyProperties) (idx : Nat) (acc r : QueueFamilyIndices),
      find_queue_families_loop qs idx acc = some r →
      ∀ i, r.graphics_family = some i →
        acc.graphics_family = some i ∨
        ∃ j qf, qs[j]? = some qf ∧ qf.graphics = true ∧ i = idx + j := by
  intro qs
  induction qs with
  | nil =>
    intro idx acc r hloop i hi
    cases hloop
    exact Or.inl hi
  | cons qf rest ih =>
    intro idx acc r hloop i hi
    by_cases hidx : idx ≤ u32Max
    · simp only [find_queue_families_loop, usize_into_u32_of_le idx hidx] at hloop
      have hstep : ∀ hacc2 : (qfi_update qf idx acc).graphics_family = some i,
          acc.graphics_family = some i ∨
          ∃ j qf2, (qf :: rest)[j]? = some qf2 ∧ qf2.graphics = true ∧ i = idx + j := by
        intro hacc2
        rw [qfi_update_graphics] at hacc2
        by_cases hg : qf.graphics = true
        · rw [if_pos hg] at hacc2
          cases hacc2
          exact Or.inr ⟨0, qf, by simp, hg, by omega⟩
        · rw [if_neg hg] at hacc2
          exact Or.inl hacc2
      split at hloop
      · cases hloop
        exact hstep hi
      · rcases ih (idx + 1) _ r hloop i hi with hacc | ⟨j, qf2, hj, hg2, hij⟩
        · exact hstep hacc
        · exact Or.inr ⟨j + 1, qf2, by simpa using hj, hg2, by omega⟩
    · rw [find_queue_families_loop, usize_into_u32_of_gt idx hidx] at hloop
      cases hloop

/-- Any present index the scan reports was either already in the
accumulator or belongs to a present-capable family at its reported
offset. -/
theorem find_queue_families_loop_present_sound :
    ∀ (qs : List QueueFamilyProperties) (idx : Nat) (acc r : QueueFamilyIndices),
      find_queue_families_loop qs idx acc = some r →
      ∀ i, r.present_family = some i →
        acc.present_family = some i ∨
        ∃ j qf, qs[j]? = some qf ∧ qf.present_support = true ∧ i = idx + j := by
  intro qs
  induction qs with
  | nil =>
    intro idx acc r hloop i hi
    cases hloop
    exact Or.inl hi
  | cons qf rest ih =>
    intro idx acc r hloop i hi
    by_cases hidx : idx ≤ u32Max
    · simp only [find_queue_families_loop, usize_into_u32_of_le idx hidx] at hloop
      have hstep : ∀ hacc2 : (qfi_update qf idx acc).present_family = some i,
          acc.present_family = some i ∨
          ∃ j qf2, (qf :: rest)[j]? = some qf2 ∧ qf2.present_support = true ∧ i = idx + j := by
        intro hacc2
        rw [qfi_update_present] at hacc2
        by_cases hp : qf.present_support = true
        · rw [if_pos hp] at hacc2
          cases hacc2
          exact Or.inr ⟨0, qf, by simp, hp, by omega⟩
        · rw [if_neg hp] at hacc2
          exact Or.inl hacc2
      split at hloop
      · cases hloop
        exact hstep hi
      · rcases ih (idx + 1) _ r hloop i hi with hacc | ⟨j, qf2, hj, hp2, hij⟩
        · exact hstep hacc
        · exact Or.inr ⟨j + 1, qf2, by simpa using hj, hp2, by omega⟩
    · rw [find_queue_families_loop, usize_into_u32_of_gt idx hidx] at hloop
      cases hloop

/-- The scan reports a graphics index exactly when the accumulator already
had one or some scanned family is graphics-capable. -/
theorem find_queue_families_loop_graphics_isSome :
    ∀ (qs : List QueueFamilyProperties) (idx : Nat) (acc r : QueueFamilyIndices),
      find_queue_families_loop qs idx acc = some r →
      (r.graphics_family.isSome = true ↔
        acc.graphics_family.isSome = true ∨ ∃ qf ∈ qs, qf.graphics = true) := by
  intro qs
  induction qs with
  | nil =>
    intro idx acc r hloop
    cases hloop
    simp
  | cons qf rest ih =>
    intro idx acc r hloop
    by_cases hidx : idx ≤ u32Max
    · simp only [find_queue_families_loop, usize_into_u32_of_le idx hidx] at hloop
      have hupd : (qfi_update qf idx acc).graphics_family.isSome = true ↔
          acc.graphics_family.isSome = true ∨ qf.graphics = true := by
        rw [qfi_update_graphics]
        by_cases hg : qf.graphics = true <;> simp [hg]
      split at hloop
      · next hcomp =>
        cases hloop
        have hgs : (qfi_update qf idx acc).graphics_family.isSome = true := by
          simp only [QueueFamilyIndices.is_complete, Bool.and_eq_true] at hcomp
          exact hcomp.1
        rw [hgs]
        simp only [true_iff]
        rcases hupd.mp hgs with h | h
        · exact Or.inl h
        · exact Or.inr ⟨qf, by simp, h⟩
      · rw [ih (idx + 1) _ r hloop, hupd]
        constructor
        · rintro ((h | h) | ⟨qf2, hmem, hg2⟩)
          · exact Or.inl h
          · exact Or.inr ⟨qf, by simp, h⟩
          · exact Or.inr ⟨qf2, by simp [hmem], hg2⟩
        · rintro (h | ⟨qf2, hmem, hg2⟩)
          · exact Or.inl (Or.inl h)
          · rcases List.mem_cons.mp hmem with heq | hmem2
            · subst heq
              exact Or.inl (Or.inr hg2)
            · exact Or.inr ⟨qf2, hmem2, hg2⟩
    · rw [find_queue_families_loop, usize_into_u32_of_gt idx hidx] at hloop
      cases hloop

/-- The scan reports a present index exactly when the accumulator already
had one or some scanned family is present-capable. -/
theorem find_queue_families_loop_present_isSome :
    ∀ (qs : List QueueFamilyProperties) (idx : Nat) (acc r : QueueFamilyIndices),
      find_queue_families_loop qs idx acc = some r →
      (r.present_family.isSome = true ↔
        acc.present_family.isSome = true ∨ ∃ qf ∈ qs, qf.present_support = true) := by
  intro qs
  induction qs with
  | nil =>
    intro idx acc r hloop
    cases hloop
    simp
  | cons qf rest ih =>
    intro idx acc r hloop
    by_cases hidx : idx ≤ u32Max
    · simp only [find_queue_families_loop, usize_into_u32_of_le idx hidx] at hloop
      have hupd : (qfi_update qf idx acc).present_family.isSome = true ↔
          acc.present_family.isSome = true ∨ qf.present_support = true := by
        rw [qfi_update_present]
        by_cases hp : qf.present_support = true <;> simp [hp]
      split at hloop
      · next hcomp =>
        cases hloop
        have hps : (qfi_update qf idx acc).present_family.isSome = true := by
          simp only [QueueFamilyIndices.is_complete, Bool.and_eq_true] at hcomp
          exact hcomp.2
        rw [hps]
        simp only [true_iff]
        rcases hupd.mp hps with h | h
        · exact Or.inl h
        · exact Or.inr ⟨qf, by simp, h⟩
      · rw [ih (idx + 1) _ r hloop, hupd]
        constructor
        · rintro ((h | h) | ⟨qf2, hmem, hp2⟩)
          · exact Or.inl h
          · exact Or.inr ⟨qf, by simp, h⟩
          · exact Or.inr ⟨qf2, by simp [hmem], hp2⟩
        · rintro (h | ⟨qf2, hmem, hp2⟩)
          · exact Or.inl (Or.inl h)
          · rcases List.mem_cons.mp hmem with heq | hmem2
            · subst heq
              exact Or.inl (Or.inr hp2)
            · exact Or.inr ⟨qf2, hmem2, hp2⟩
    · rw [find_queue_families_loop, usize_into_u32_of_gt idx hidx] at hloop
      cases hloop

/-- Early stop: once a scan starting from an incomplete accumulator ends
complete, appending further families cannot change its result. -/
theorem find_queue_families_loop_append :
    ∀ (qs rest : List QueueFamilyProperties) (idx : Nat) (acc r : QueueFamilyIndices),
      acc.is_complete = false →
      find_queue_families_loop qs idx acc = some r →
      r.is_complete = true →
      find_queue_families_loop (qs ++ rest) idx acc = some r := by
  intro qs
  induction qs with
  | nil =>
    intro rest idx acc r hacc hloop hr
    cases hloop
    rw [hacc] at hr
    cases hr
  | cons qf qs2 ih =>
    intro rest idx acc r hacc hloop hr
    by_cases hidx : idx ≤ u32Max
    · simp only [find_queue_families_loop, usize_into_u32_of_le idx hidx] at hloop
      simp only [List.cons_append, find_queue_families_loop,
        usize_into_u32_of_le idx hidx]
      split at hloop
      · next hcomp =>
        rw [if_pos hcomp]
        exact hloop
      · next hcomp =>
        rw [if_neg hcomp]
        exact ih rest (idx + 1) _ r (by simpa using hcomp) hloop hr
    · rw [find_queue_families_loop, usize_into_u32_of_gt idx hidx] at hloop
      cases hloop

/-- C2 (amended): the scan records, for each scanned family in index
order, its index as `graphics_family` when graphics-capable and as
`present_family` when present-capable, later recordings overwriting
earlier ones, and stops as soon as both are resolved.  Hence each recorded
index denotes a family with the corresponding capability, an index is
recorded for a capability iff some scanned family has it, a complete
result is unaffected by appending further families, the two-family list
(graphics-only, present-only) yields indices (0, 1), and a single family
supporting both yields equal indices. -/
theorem find_queue_families_amended :
    ∀ qs : List QueueFamilyProperties, qs.length ≤ 2 ^ 32 →
      ∃ r, find_queue_families qs = some r ∧
        (∀ i, r.graphics_family = some i →
          ∃ qf, qs[i]? = some qf ∧ qf.graphics = true) ∧
        (∀ i, r.present_family = some i →
          ∃ qf, qs[i]? = some qf ∧ qf.present_support = true) ∧
        (r.graphics_family.isSome = true ↔ ∃ qf ∈ qs, qf.graphics = true) ∧
        (r.present_family.isSome = true ↔ ∃ qf ∈ qs, qf.present_support = true) ∧
        (r.is_complete = true →
          ∀ rest, find_queue_families (qs ++ rest) = some r) ∧
        find_queue_families
            [QueueFamilyProperties.mk true false, QueueFamilyProperties.mk false true] =
          some (QueueFamilyIndices.mk (some 0) (some 1)) ∧
        find_queue_families [QueueFamilyProperties.mk true true] =
          some (QueueFamilyIndices.mk (some 0) (some 0)) := by
  intro qs hlen
  obtain ⟨r, hr⟩ :=
    find_queue_families_loop_total qs 0 QueueFamilyIndices.new (by omega)
  refine ⟨r, hr, ?_, ?_, ?_, ?_, ?_, by decide, by decide⟩
  · intro i hi
    rcases find_queue_families_loop_graphics_sound qs 0 QueueFamilyIndices.new r hr i hi
      with hacc | ⟨j, qf, hj, hg, hij⟩
    · cases hacc
    · rw [show i = j by omega]
      exact ⟨qf, hj, hg⟩
  · intro i hi
    rcases find_queue_families_loop_present_sound qs 0 QueueFamilyIndices.new r hr i hi
      with hacc | ⟨j, qf, hj, hp, hij⟩
    · cases hacc
    · rw [show i = j by omega]
      exact ⟨qf, hj, hp⟩
  · rw [find_queue_families_loop_graphics_isSome qs 0 QueueFamilyIndices.new r hr]
    simp [QueueFamilyIndices.new]
  · rw [find_queue_families_loop_present_isSome qs 0 QueueFamilyIndices.new r hr]
    simp [QueueFamilyIndices.new]
  · intro hcomp rest
    exact find_queue_families_loop_append qs rest 0 QueueFamilyIndices.new r
      queue_family_indices_new_incomplete hr hcomp

/-- Witness for `find_queue_families_amended`, at the two-family list of
the spec example. -/
theorem find_queue_families_amended_witness :
    find_queue_families
        [QueueFamilyProperties.mk true false, QueueFamilyProperties.mk false true] =
      some (QueueFamilyIndices.mk (some 0) (some 1)) := by
  obtain ⟨r, hr, hrest⟩ := find_queue_families_amended
    [QueueFamilyProperties.mk true false, QueueFamilyProperties.mk false true]
    (by decide)
  exact hrest.2.2.2.2.2.1

/-- Erasing through a fold from an already-empty requirement list keeps it
empty. -/
theorem foldl_erase_nil :
    ∀ avail : List String,
      avail.foldl (fun required ext => required.erase ext) ([] : List String) = [] := by
  intro avail
  induction avail with
  | nil => rfl
  | cons e rest ih =>
    simpa [List.foldl_cons] using ih

/-- The required-extension set empties out exactly when the single required
extension occurs among the available ones. -/
theorem check_extension_support_iff :
    ∀ available : List String,
      check_physical_device_extension_support available = true ↔
        ∀ ext ∈ DEVICE_EXTENSIONS, ext ∈ available := by
  have aux : ∀ available : List String,
      (available.foldl (fun required ext => required.erase ext)
        ["VK_KHR_swapchain"]).isEmpty = true ↔
      "VK_KHR_swapchain" ∈ available := by
    intro available
    induction available with
    | nil => simp
    | cons e rest ih =>
      by_cases he : e = "VK_KHR_swapchain"
      · subst he
        simp [List.foldl_cons, List.erase_cons_head, foldl_erase_nil]
      · have herase : (["VK_KHR_swapchain"] : List String).erase e =
            ["VK_KHR_swapchain"] := by
          rw [List.erase_cons]
          rw [if_neg (by simpa using fun h => he h.symm)]
          rfl
        rw [List.foldl_cons, herase, ih]
        simp [List.mem_cons, he]
        intro h
        exact absurd h.symm he
  intro available
  rw [check_physical_device_extension_support]
  rw [show DEVICE_EXTENSIONS = ["VK_KHR_swapchain"] from rfl]
  rw [aux available]
  simp

/-- C6: a candidate is suitable iff its queue-family indices resolve
completely, every required device extension is among its supported
extensions, and it reports at least one surface format and at least one
present mode.  The length bound rules out the (absurd) index-conversion
panic inside the queue-family scan. -/
theorem is_physical_device_suitable_spec :
    ∀ c : PhysicalDeviceCandidate, c.queue_families.length ≤ 2 ^ 32 →
      (is_physical_device_suitable c = some true ↔
        (∃ qfi, find_queue_families c.queue_families = some qfi ∧
          qfi.is_complete = true) ∧
        (∀ ext ∈ DEVICE_EXTENSIONS, ext ∈ c.device_extensions) ∧
        c.surface_formats ≠ [] ∧
        c.surface_present_modes ≠ []) := by
  intro c hlen
  obtain ⟨qfi, hq⟩ :=
    find_queue_families_loop_total c.queue_families 0 QueueFamilyIndices.new (by omega)
  have hq2 : find_queue_families c.queue_families = some qfi := hq
  rw [is_physical_device_suitable, hq2]
  constructor
  · intro h
    rw [Option.some_inj] at h
    simp only [Bool.and_eq_true] at h
    obtain ⟨⟨hcomp, hsupp⟩, hadq⟩ := h
    rw [if_pos hsupp] at hadq
    simp only [Bool.and_eq_true, Bool.not_eq_true', List.isEmpty_eq_false] at hadq
    exact ⟨⟨qfi, rfl, hcomp⟩, (check_extension_support_iff c.device_extensions).mp hsupp,
      hadq.1, hadq.2⟩
  · rintro ⟨⟨qfi2, hq3, hcomp⟩, hsupp, hf, hm⟩
    rw [Option.some_inj] at hq3
    subst hq3
    have hsupp2 := (check_extension_support_iff c.device_extensions).mpr hsupp
    simp [hcomp, hsupp2, List.isEmpty_eq_false.mpr hf, List.isEmpty_eq_false.mpr hm]

/-- Witness for `is_physical_device_suitable_spec`: a candidate with one
graphics-and-present family, the swapchain extension, one format and one
present mode is suitable. -/
theorem is_physical_device_suitable_spec_witness :
    is_physical_device_suitable
        (PhysicalDeviceCandidate.mk [QueueFamilyProperties.mk true true]
          ["VK_KHR_swapchain"] [SurfaceFormatKHR.mk 43 0] [2]) = some true :=
  (is_physical_device_suitable_spec
      (PhysicalDeviceCandidate.mk [QueueFamilyProperties.mk true true]
        ["VK_KHR_swapchain"] [SurfaceFormatKHR.mk 43 0] [2]) (by decide)).mpr
    ⟨⟨QueueFamilyIndices.mk (some 0) (some 0), by decide, by decide⟩,
      by decide, by decide, by decide⟩

/-- When no suitability check panics, the selection loop returns the first
suitable candidate, or the no-suitable-device error. -/
theorem select_physical_device_loop_eq_find :
    ∀ devices : List PhysicalDeviceCandidate,
      (∀ d ∈ devices, is_physical_device_suitable d ≠ none) →
      select_physical_device_loop devices =
        match devices.find?
            (fun d => is_physical_device_suitable d == some true) with
        | some d => Except.ok d
        | none => Except.error "no suitable physical device found!" := by
  intro devices
  induction devices with
  | nil =>
    intro h
    rfl
  | cons d rest ih =>
    intro h
    have hd := h d (by simp)
    cases hmatch : is_physical_device_suitable d with
    | none => exact absurd hmatch hd
    | some b =>
      cases b with
      | true =>
        rw [select_physical_device_loop, hmatch]
        rw [List.find?_cons_of_pos _ (by simp [hmatch])]
      | false =>
        rw [select_physical_device_loop, hmatch]
        rw [List.find?_cons_of_neg _ (by simp [hmatch])]
        exact ih (fun d2 hd2 => h d2 (by simp [hd2]))

/-- C7: device selection fails fatally on an empty adapter list, fails
fatally with the no-suitable-device message when no candidate is suitable,
and otherwise returns the first (in enumeration order) suitable
candidate. -/
theorem select_physical_device_spec :
    ∀ devices : List PhysicalDeviceCandidate,
      (devices = [] →
        select_physical_device devices =
          Except.error "couldn't find any physical device!") ∧
      ((∀ d ∈ devices, d.queue_families.length ≤ 2 ^ 32) →
        ((∀ d ∈ devices, is_physical_device_suitable d = some false) →
          devices ≠ [] →
          select_physical_device devices =
            Except.error "no suitable physical device found!") ∧
        (∀ d, devices.find?
            (fun c => is_physical_device_suitable c == some true) = some d →
          select_physical_device devices = Except.ok d)) := by
  intro devices
  constructor
  · intro h
    subst h
    rfl
  · intro hlen
    have hnn : ∀ d ∈ devices, is_physical_device_suitable d ≠ none := by
      intro d hd
      obtain ⟨qfi, hq⟩ := find_queue_families_loop_total d.queue_families 0
        QueueFamilyIndices.new (by have := hlen d hd; omega)
      have hq2 : find_queue_families d.queue_families = some qfi := hq
      rw [is_physical_device_suitable, hq2]
      simp
    constructor
    · intro hall hne
      rw [select_physical_device,
        if_pos (by simpa using List.length_pos.mpr hne)]
      rw [select_physical_device_loop_eq_find devices hnn]
      rw [List.find?_eq_none.mpr (by intro x hx; simp [hall x hx])]
    · intro d hfind
      have hmem := List.mem_of_find?_eq_some hfind
      have hne : devices ≠ [] := by
        intro h
        subst h
        cases hmem
      rw [select_physical_device,
        if_pos (by simpa using List.length_pos.mpr hne)]
      rw [select_physical_device_loop_eq_find devices hnn, hfind]

/-- Witness for `select_physical_device_spec`: empty list, a list with one
unsuitable candidate (missing extension), and a list where the second
candidate is the first suitable one. -/
theorem select_physical_device_spec_witness :
    select_physical_device [] =
      Except.error "couldn't find any physical device!" ∧
    select_physical_device
        [PhysicalDeviceCandidate.mk [QueueFamilyProperties.mk true true]
          [] [SurfaceFormatKHR.mk 43 0] [2]] =
      Except.error "no suitable physical device found!" ∧
    select_physical_device
        [PhysicalDeviceCandidate.mk [QueueFamilyProperties.mk true true]
          [] [SurfaceFormatKHR.mk 43 0] [2],
         PhysicalDeviceCandidate.mk [QueueFamilyProperties.mk true true]
          ["VK_KHR_swapchain"] [SurfaceFormatKHR.mk 43 0] [2]] =
      Except.ok (PhysicalDeviceCandidate.mk [QueueFamilyProperties.mk true true]
        ["VK_KHR_swapchain"] [SurfaceFormatKHR.mk 43 0] [2]) :=
  ⟨(select_physical_device_spec []).1 rfl,
   ((select_physical_device_spec
      [PhysicalDeviceCandidate.mk [QueueFamilyProperties.mk true true]
        [] [SurfaceFormatKHR.mk 43 0] [2]]).2 (by decide)).1 (by decide) (by decide),
   ((select_physical_device_spec
      [PhysicalDeviceCandidate.mk [QueueFamilyProperties.mk true true]
        [] [SurfaceFormatKHR.mk 43 0] [2],
       PhysicalDeviceCandidate.mk [QueueFamilyProperties.mk true true]
        ["VK_KHR_swapchain"] [SurfaceFormatKHR.mk 43 0] [2]]).2 (by decide)).2
      (PhysicalDeviceCandidate.mk [QueueFamilyProperties.mk true true]
        ["VK_KHR_swapchain"] [SurfaceFormatKHR.mk 43 0] [2]) (by decide)⟩

/-- Direct dependencies point forward in the teardown order. -/
theorem reskind_depends_on_stage :
    ∀ k1 k2 : ResKind, k1.depends_on k2 = true → k1.stage < k2.stage := by
  intro k1 k2
  cases k1 <;> cases k2 <;> decide

/-- No resource depends on itself. -/
theorem reskind_depends_on_irrefl :
    ∀ k : ResKind, k.depends_on k = false := by
  intro k
  cases k <;> rfl

/-- The destroy-event constructor for image views is injective. -/
theorem image_view_injective : Function.Injective DestroyEvent.image_view := by
  intro a b h
  cases h
  rfl

/-- The trivial relation is pairwise on every list. -/
theorem pairwise_true (vs : List Nat) :
    List.Pairwise (fun (_ _ : Nat) => True) vs := by
  induction vs with
  | nil => exact List.Pairwise.nil
  | cons v rest ih => exact List.Pairwise.cons (fun b _ => trivial) ih

/-- The teardown trace is monotone in the teardown stage of the destroyed
resource kinds. -/
theorem renderer_drop_pairwise_stage (r : RendererHandles) :
    (renderer_drop r).Pairwise
      (fun a b => a.kind.stage ≤ b.kind.stage) := by
  rcases hdc : r.debug_ctx with _ | d
  · simp only [renderer_drop, hdc, List.pairwise_append, List.pairwise_cons,
      List.pairwise_map]
    simp [DestroyEvent.kind, ResKind.stage]
    refine ⟨pairwise_true _, ?_⟩
    rintro a (⟨v, hv, rfl⟩ | rfl | rfl | rfl) <;>
      simp [DestroyEvent.kind, ResKind.stage]
  · simp only [renderer_drop, hdc, List.pairwise_append, List.pairwise_cons,
      List.pairwise_map]
    simp [DestroyEvent.kind, ResKind.stage]
    refine ⟨⟨pairwise_true _, ?_⟩, ?_⟩
    · rintro a (⟨v, hv, rfl⟩ | rfl | rfl | rfl) <;>
        simp [DestroyEvent.kind, ResKind.stage]
    · rintro a (⟨v, hv, rfl⟩ | rfl | rfl | rfl | rfl) <;>
        simp [DestroyEvent.kind, ResKind.stage]

/-- The kind sequence of the teardown trace: pipeline, pipeline layout,
render pass, one image-view destroy per view, swapchain, device, surface,
debug messenger only when present, instance. -/
theorem renderer_drop_kinds (r : RendererHandles) :
    (renderer_drop r).map DestroyEvent.kind =
      [ResKind.pipeline, ResKind.pipeline_layout, ResKind.render_pass]
      ++ r.swapchain_image_views.map (fun _ => ResKind.image_view)
      ++ [ResKind.swapchain, ResKind.device, ResKind.surface]
      ++ (match r.debug_ctx with
          | some _ => [ResKind.debug_utils_messenger]
          | none => [])
      ++ [ResKind.vulkan_instance] := by
  rcases hdc : r.debug_ctx with _ | d <;>
    simp [renderer_drop, hdc, DestroyEvent.kind, Function.comp_def, List.map_const']

/-- Nothing in the image-view segment of the trace is a non-image-view
event. -/
theorem count_map_image_view_eq_zero (vs : List Nat) (e : DestroyEvent)
    (he : ∀ v, e ≠ DestroyEvent.image_view v) :
    (vs.map DestroyEvent.image_view).count e = 0 := by
  rw [List.count_eq_zero]
  intro hmem
  rcases List.mem_map.mp hmem with ⟨v, hv, hev⟩
  exact he v hev.symm

/-- C9: the teardown destroys resources in exactly the reverse of the
creation order (first conjunct: the kind sequence), destroys each owned
resource exactly once (second conjunct: occurrence counts, with no debug
destroy when no debug hook exists), and never destroys a resource after
one it depends on (third conjunct: any dependent event strictly precedes
the event it depends on). -/
theorem renderer_drop_spec :
    ∀ r : RendererHandles, r.swapchain_image_views.Nodup →
      ((renderer_drop r).map DestroyEvent.kind =
        [ResKind.pipeline, ResKind.pipeline_layout, ResKind.render_pass]
        ++ r.swapchain_image_views.map (fun _ => ResKind.image_view)
        ++ [ResKind.swapchain, ResKind.device, ResKind.surface]
        ++ (match r.debug_ctx with
            | some _ => [ResKind.debug_utils_messenger]
            | none => [])
        ++ [ResKind.vulkan_instance]) ∧
      ((renderer_drop r).count (DestroyEvent.pipeline r.pipeline) = 1 ∧
       (renderer_drop r).count (DestroyEvent.pipeline_layout r.pipeline_layout) = 1 ∧
       (renderer_drop r).count (DestroyEvent.render_pass r.render_pass) = 1 ∧
       (∀ v ∈ r.swapchain_image_views,
         (renderer_drop r).count (DestroyEvent.image_view v) = 1) ∧
       (renderer_drop r).count (DestroyEvent.swapchain r.swapchain) = 1 ∧
       (renderer_drop r).count (DestroyEvent.device r.logical_device) = 1 ∧
       (renderer_drop r).count (DestroyEvent.surface r.surface) = 1 ∧
       (∀ dm, r.debug_ctx = some dm →
         (renderer_drop r).count (DestroyEvent.debug_utils_messenger dm) = 1) ∧
       (r.debug_ctx = none →
         ∀ dm, (renderer_drop r).count (DestroyEvent.debug_utils_messenger dm) = 0) ∧
       (renderer_drop r).count (DestroyEvent.vulkan_instance r.instance_handle) = 1) ∧
      (∀ i j : Fin (renderer_drop r).length,
        (((renderer_drop r).get i).kind).depends_on (((renderer_drop r).get j).kind)
            = true →
        (i : Nat) < (j : Nat)) := by
  intro r hnd
  refine ⟨renderer_drop_kinds r, ?_, ?_⟩
  · rcases hdc : r.debug_ctx with _ | dm0
    · refine ⟨?_, ?_, ?_, ?_, ?_, ?_, ?_, ?_, ?_, ?_⟩
      · simp [renderer_drop, hdc, List.count_append, List.count_cons,
          count_map_image_view_eq_zero]
      · simp [renderer_drop, hdc, List.count_append, List.count_cons,
          count_map_image_view_eq_zero]
      · simp [renderer_drop, hdc, List.count_append, List.count_cons,
          count_map_image_view_eq_zero]
      · intro v hv
        simp [renderer_drop, hdc, List.count_append, List.count_cons,
          List.count_map_of_injective _ _ image_view_injective,
          List.count_eq_one_of_mem hnd hv]
      · simp [renderer_drop, hdc, List.count_append, List.count_cons,
          count_map_image_view_eq_zero]
      · simp [renderer_drop, hdc, List.count_append, List.count_cons,
          count_map_image_view_eq_zero]
      · simp [renderer_drop, hdc, List.count_append, List.count_cons,
          count_map_image_view_eq_zero]
      · intro dm hdm
        cases hdm
      · intro _ dm
        simp [renderer_drop, hdc, List.count_append, List.count_cons,
          count_map_image_view_eq_zero]
      · simp [renderer_drop, hdc, List.count_append, List.count_cons,
          count_map_image_view_eq_zero]
    · refine ⟨?_, ?_, ?_, ?_, ?_, ?_, ?_, ?_, ?_, ?_⟩
      · simp [renderer_drop, hdc, List.count_append, List.count_cons,
          count_map_image_view_eq_zero]
      · simp [renderer_drop, hdc, List.count_append, List.count_cons,
          count_map_image_view_eq_zero]
      · simp [renderer_drop, hdc, List.count_append, List.count_cons,
          count_map_image_view_eq_zero]
      · intro v hv
        simp [renderer_drop, hdc, List.count_append, List.count_cons,
          List.count_map_of_injective _ _ image_view_injective,
          List.count_eq_one_of_mem hnd hv]
      · simp [renderer_drop, hdc, List.count_append, List.count_cons,
          count_map_image_view_eq_zero]
      · simp [renderer_drop, hdc, List.count_append, List.count_cons,
          count_map_image_view_eq_zero]
      · simp [renderer_drop, hdc, List.count_append, List.count_cons,
          count_map_image_view_eq_zero]
      · intro dm hdm
        rw [Option.some_inj] at hdm
        subst hdm
        simp [renderer_drop, hdc, List.count_append, List.count_cons,
          count_map_image_view_eq_zero]
      · intro hnone
        cases hnone
      · simp [renderer_drop, hdc, List.count_append, List.count_cons,
          count_map_image_view_eq_zero]
  · have hpw := renderer_drop_pairwise_stage r
    rw [List.pairwise_iff_getElem] at hpw
    intro i j hdep
    have hst := reskind_depends_on_stage _ _ hdep
    rcases Nat.lt_trichotomy (i : Nat) (j : Nat) with h | h | h
    · exact h
    · exfalso
      have hij : i = j := Fin.ext h
      subst hij
      rw [reskind_depends_on_irrefl] at hdep
      cases hdep
    · exfalso
      have hle := hpw (j : Nat) (i : Nat) j.isLt i.isLt h
      simp only [List.get_eq_getElem] at hst
      exact absurd (Nat.lt_of_lt_of_le hst hle) (Nat.lt_irrefl _)

/-- Witness for `renderer_drop_spec` at a concrete handle record with two
image views and a debug hook present. -/
theorem renderer_drop_spec_witness :
    (renderer_drop (RendererHandles.mk 1 (some 2) 3 4 5 [6, 7] 8 9 10)).count
      (DestroyEvent.pipeline 10) = 1 :=
  ((renderer_drop_spec (RendererHandles.mk 1 (some 2) 3 4 5 [6, 7] 8 9 10)
      (by decide)).2).1.1

end Custicle
